import Mathlib

/-!
Shallow embedding of `src/src/image/script.c` (the iPXE script engine).

Modelling conventions:
* Script bytes are `List Nat` (byte values 0..255; only their equality with
  fixed constants such as 10 = newline, 58 = colon matters here).
* The process-wide globals `script` and `script_offset` form an explicit
  `State` record threaded through every function.
* The external command dispatcher `system()` is a parameter of type
  `List Nat → State → Int × State`: it receives the NUL-terminated line
  (modelled as the byte list without the trailing NUL) and may mutate the
  globals (e.g. a nested script execution or a `goto` does).
* The do-while loop of `process_script` may fail to terminate (the source
  deliberately allows `goto` loops), so it takes a fuel argument and
  returns `none` when the fuel runs out (or when the C code would
  dereference a NULL `script` pointer).
* C error constants: only their identity and non-zero-ness matter; we fix
  the conventional Linux values.
-/

namespace ScriptEngine

/-- Image types; the only one relevant here is the script type that
`script_load` assigns on acceptance. -/
inductive ImageType where
  | script
deriving DecidableEq, Repr

/-- An image: a byte blob (`data`, with `len = data.length`) plus the
`type` tag assigned by a successful loader. Mirrors the fields of
`struct image` that `script.c` reads or writes. -/
structure Image where
  data : List Nat
  type : Option ImageType := none
deriving DecidableEq, Repr

/-- The process-wide globals of `script.c`: the currently running script
(`static struct image *script`, NULL modelled as `none`) and the offset
within it (`static size_t script_offset`). -/
structure State where
  script : Option Image
  script_offset : Nat
deriving DecidableEq, Repr

/-- ENOEXEC error constant (`-ENOEXEC` is returned by `script_load`). -/
def ENOEXEC : Int := 8

/-- ENOENT error constant (`-ENOENT` is returned by `goto_find_label`). -/
def ENOENT : Int := 2

/-- ENOTTY error constant (`-ENOTTY` is returned by `goto_exec` when no
script is active). -/
def ENOTTY : Int := 25

/-- Helper for `findNL`: first index `≥ pos` holding byte 10, scanning the
given list which starts at absolute index `pos`. -/
def findNLAux : List Nat → Nat → Option Nat
  | [], _ => none
  | c :: rest, pos => if c = 10 then some pos else findNLAux rest (pos + 1)

/-- Model of `memchr_user ( script->data, script_offset, '\n',
script->len - script_offset )`: the absolute offset of the first newline
byte at or after `off`, or `none` (the C code gets a negative `eol`). -/
def findNL (data : List Nat) (off : Nat) : Option Nat :=
  findNLAux (data.drop off) off

/-- The loop body of `process_script`, with explicit fuel. Each iteration:
find `eol` (end of line, or `script->len` when no newline remains), copy
the line `[off, eol)`, advance `script_offset` past the line and its
terminator (`script_offset += len + 1`), then run the line processor, and
either stop (returning its status) or continue while
`script_offset < script->len`. The visited lines and their statuses are
also recorded, newest first (ghost instrumentation; the C code records
nothing). Reading a NULL `script` yields `none`. -/
def processScriptAux (pl : List Nat → State → Int × State) (term : Int → Bool) :
    Nat → State → List (List Nat × Int) → Option (Int × State × List (List Nat × Int))
  | 0, _, _ => none
  | fuel + 1, s, tr =>
    match s.script with
    | none => none
    | some img =>
      let eol := (findNL img.data s.script_offset).getD img.data.length
      let line := (img.data.drop s.script_offset).take (eol - s.script_offset)
      let s1 : State := { s with script_offset := s.script_offset + (eol - s.script_offset) + 1 }
      let r := pl line s1
      if term r.1 then some (r.1, r.2, (line, r.1) :: tr)
      else
        match r.2.script with
        | none => none
        | some img2 =>
          if r.2.script_offset < img2.data.length then
            processScriptAux pl term fuel r.2 ((line, r.1) :: tr)
          else some (r.1, r.2, (line, r.1) :: tr)

/-- Model of `process_script`: resets `script_offset` to 0 and runs the
do-while loop. -/
def processScript (pl : List Nat → State → Int × State) (term : Int → Bool)
    (fuel : Nat) (s : State) : Option (Int × State × List (List Nat × Int)) :=
  processScriptAux pl term fuel { s with script_offset := 0 } []

/-- Model of `terminate_on_failure`. -/
def terminate_on_failure (rc : Int) : Bool := rc != 0

/-- Model of `terminate_on_success`. -/
def terminate_on_success (rc : Int) : Bool := rc == 0

/-- Model of `script_exec_line`: label lines (first byte `':'` = 58) are
skipped with status 0; other lines go to the external command dispatcher
`system`, whose non-zero status is reported and propagated. -/
def script_exec_line (system : List Nat → State → Int × State)
    (line : List Nat) (s : State) : Int × State :=
  if line.head? = some 58 then (0, s)
  else
    let r := system line s
    if r.1 != 0 then (r.1, r.2)
    else (0, r.2)

/-- Model of `script_exec`: save the globals, point `script` at the image,
run the walker with `script_exec_line` / `terminate_on_failure`, then
restore both globals unconditionally and return the walker's status.
(The `unregister_image` / `register_image` calls bracket the run but live
in the external image registry, outside the state modelled here.) -/
def script_exec (system : List Nat → State → Int × State) (fuel : Nat)
    (image : Image) (s : State) : Option (Int × State) :=
  let saved_script := s.script
  let saved_offset := s.script_offset
  let s1 : State := { s with script := some image }
  match processScript (script_exec_line system) terminate_on_failure fuel s1 with
  | none => none
  | some (rc, s2, _) =>
    some (rc, { s2 with script := saved_script, script_offset := saved_offset })

/-- The bytes of the `"#!ipxe"` signature. -/
def ipxe_magic : List Nat := [35, 33, 105, 112, 120, 101]

/-- The bytes of the `"#!gpxe"` signature. -/
def gpxe_magic : List Nat := [35, 33, 103, 112, 120, 101]

/-- Modelled from the spec: `isspace` is provided by the C library headers,
not by the source file under `src/`; the spec only says the byte after the
signature must be "whitespace", so we use the standard C whitespace set
(space, tab, newline, vertical tab, form feed, carriage return). -/
def isspace (c : Nat) : Bool :=
  c = 32 || c = 9 || c = 10 || c = 11 || c = 12 || c = 13

/-- Model of `script_load`: reject blobs shorter than the 7-byte
magic-plus-separator buffer, copy those 7 bytes, require the first 6 to
match one of the two signatures and the 7th to be whitespace; on
acceptance tag the image with the script image type. Returns the status
paired with the (possibly updated) image. -/
def script_load (image : Image) : Int × Image :=
  if image.data.length < 7 then (-ENOEXEC, image)
  else
    let test := image.data.take 7
    if (test.take 6 = ipxe_magic ∨ test.take 6 = gpxe_magic) ∧
        isspace (test.getD 6 0) = true then
      (0, { image with type := some ImageType.script })
    else (-ENOEXEC, image)

/-- Model of the C string a consumer sees when reading a byte buffer as a
NUL-terminated string: everything before the first NUL byte. -/
def cstr (l : List Nat) : List Nat := l.takeWhile (fun c => c != 0)

/-- Model of `goto_find_label`: status 0 when the line starts with `':'`
and the rest of it, read as a C string, equals the requested label
(`strcmp ( goto_label, &line[1] )`); `-ENOENT` otherwise. The label is
passed as a parameter rather than through the `goto_label` global, which
the source comment itself describes as "part of a closure". -/
def goto_find_label (label line : List Nat) : Int :=
  if line.head? ≠ some 58 then -ENOENT
  else if cstr label ≠ cstr line.tail then -ENOENT
  else 0

/-- Model of `goto_exec`, after successful option parsing (the claims all
presuppose a well-formed single label argument; `parse_options` lives in
the external `parseopt` collaborator): fail with `-ENOTTY` when no script
is active, otherwise save `script_offset`, search from the start of the
active script with `goto_find_label` / `terminate_on_success`, and restore
the saved offset exactly when the search failed. -/
def goto_exec (label : List Nat) (fuel : Nat) (s : State) : Option (Int × State) :=
  match s.script with
  | none => some (-ENOTTY, s)
  | some _ =>
    let saved_offset := s.script_offset
    match processScript (fun line st => (goto_find_label label line, st))
        terminate_on_success fuel s with
    | none => none
    | some (rc, s2, _) =>
      if rc ≠ 0 then some (rc, { s2 with script_offset := saved_offset })
      else some (0, s2)

/-- Statement-side helper: the newline-delimited lines of a script,
paired with their start offsets, exactly as the walker would carve them
out (a line runs from its start offset to the next newline or to the end
of the data). `fuel` is structural; each step consumes at least one byte
position, so `data.length + 1` steps always suffice. -/
def walkLinesAux (data : List Nat) : Nat → Nat → List (Nat × List Nat)
  | _, 0 => []
  | off, fuel + 1 =>
    if off < data.length then
      let eol := (findNL data off).getD data.length
      (off, (data.drop off).take (eol - off)) :: walkLinesAux data (off + (eol - off) + 1) fuel
    else []

/-- Statement-side helper: all lines of a script with their offsets. -/
def walkLines (data : List Nat) : List (Nat × List Nat) :=
  walkLinesAux data 0 (data.length + 1)

/-- Statement-side helper: does this line declare exactly the requested
label, i.e. is it `':'` followed by precisely the label bytes? -/
def labelMatches (label line : List Nat) : Bool :=
  line.head? == some 58 && line.tail == label

/-- C1: `script_exec` restores the execution cursor — both the active
script and the offset — to its exact pre-call value on every terminating
run, for every external command dispatcher `sys` (in particular for one
that itself triggers nested script execution: the inner call is just one
such `sys`, so after it returns the outer walker continues with the outer
cursor intact, at the line past the one that invoked it). -/
theorem script_exec_restores (sys : List Nat → State → Int × State)
    (fuel : Nat) (image : Image) (s : State) (rc : Int) (s2 : State)
    (h : script_exec sys fuel image s = some (rc, s2)) :
    s2.script = s.script ∧ s2.script_offset = s.script_offset := by
  rcases hw : processScript (script_exec_line sys) terminate_on_failure fuel
      { s with script := some image } with _ | ⟨rc0, s0, tr0⟩ <;>
    simp only [script_exec, hw, Option.some.injEq, Prod.mk.injEq] at h
  · exact Option.noConfusion h
  · rw [← h.2]
    exact ⟨rfl, rfl⟩

/-- Concrete command dispatcher that runs a nested one-line script through
`script_exec` itself, used to exercise the re-entrancy path. -/
def nestSys : List Nat → State → Int × State := fun _ st =>
  match script_exec (fun _ st2 => (0, st2)) 8 ⟨[35], none⟩ st with
  | some (rc, st2) => (rc, st2)
  | none => (1, st)

theorem script_exec_restores_witness :
    script_exec nestSys 8 ⟨[97, 10, 98], none⟩ ⟨none, 3⟩ = some (0, ⟨none, 3⟩) ∧
      ((⟨none, 3⟩ : State).script = (⟨none, 3⟩ : State).script ∧
       (⟨none, 3⟩ : State).script_offset = (⟨none, 3⟩ : State).script_offset) :=
  ⟨by decide,
   script_exec_restores nestSys 8 ⟨[97, 10, 98], none⟩ ⟨none, 3⟩ 0 ⟨none, 3⟩ (by decide)⟩

/-- C6: `script_load` accepts a blob — tags it with the script image type
and returns 0 — exactly when the blob is at least 7 bytes long, its first
6 bytes are `"#!ipxe"` or `"#!gpxe"`, and the byte right after the
signature is whitespace; every rejected blob gets the error status
`-ENOEXEC` (in particular any blob shorter than 7 bytes, whose acceptance
condition fails at its first conjunct). -/
theorem script_load_spec (image : Image) :
    ((script_load image).1 = 0 ↔
      (7 ≤ image.data.length ∧
       (image.data.take 6 = ipxe_magic ∨ image.data.take 6 = gpxe_magic) ∧
       isspace (image.data.getD 6 0) = true)) ∧
    ((script_load image).1 = 0 →
      (script_load image).2 = { image with type := some ImageType.script }) ∧
    ((script_load image).1 ≠ 0 → (script_load image).1 = -ENOEXEC) := by
  have htk : (image.data.take 7).take 6 = image.data.take 6 := by
    rw [List.take_take]
    norm_num
  have hgd : 7 ≤ image.data.length → (image.data.take 7).getD 6 0 = image.data.getD 6 0 := by
    intro h7
    simp only [List.getD, List.getElem?_take]
    norm_num
  by_cases hlen : image.data.length < 7
  · have h1 : script_load image = (-ENOEXEC, image) := by
      unfold script_load
      rw [if_pos hlen]
    rw [h1]
    refine ⟨⟨fun h => absurd h (by norm_num [ENOEXEC]), fun h => absurd h.1 (by omega)⟩,
      fun h => absurd h (by norm_num [ENOEXEC]), fun _ => rfl⟩
  · by_cases hsig : ((image.data.take 7).take 6 = ipxe_magic ∨
        (image.data.take 7).take 6 = gpxe_magic) ∧
        isspace ((image.data.take 7).getD 6 0) = true
    · have h1 : script_load image = (0, { image with type := some ImageType.script }) := by
        unfold script_load
        rw [if_neg hlen, if_pos hsig]
      rw [h1]
      refine ⟨⟨fun _ => ⟨by omega, ?_, ?_⟩, fun _ => rfl⟩, fun _ => rfl,
        fun h => absurd rfl h⟩
      · rw [← htk]
        exact hsig.1
      · rw [← hgd (by omega)]
        exact hsig.2
    · have h1 : script_load image = (-ENOEXEC, image) := by
        unfold script_load
        rw [if_neg hlen, if_neg hsig]
      rw [h1]
      refine ⟨⟨fun h => absurd h (by norm_num [ENOEXEC]), fun h => absurd ?_ hsig⟩,
        fun h => absurd h (by norm_num [ENOEXEC]), fun _ => rfl⟩
      refine ⟨by rw [htk]; exact h.2.1, by rw [hgd (by omega)]; exact h.2.2⟩

theorem script_load_spec_witness :
    (script_load ⟨[35, 33, 105, 112, 120, 101, 10, 97], none⟩).1 = 0 ∧
    (script_load ⟨[35, 33], none⟩).1 = -ENOEXEC :=
  ⟨(script_load_spec ⟨[35, 33, 105, 112, 120, 101, 10, 97], none⟩).1.mpr
      ⟨by decide, Or.inl (by decide), by decide⟩,
   (script_load_spec ⟨[35, 33], none⟩).2.2 (by decide)⟩

/-- C9: whenever `script_load` rejects a blob (for either reason) it
returns the image completely unchanged; the type tag is assigned only on
the acceptance path. -/
theorem script_load_reject_unchanged (image : Image)
    (h : (script_load image).1 ≠ 0) : (script_load image).2 = image := by
  unfold script_load at h ⊢
  by_cases hlen : image.data.length < 7
  · simp only [if_pos hlen]
  · simp only [if_neg hlen] at h ⊢
    by_cases hsig : ((image.data.take 7).take 6 = ipxe_magic ∨
        (image.data.take 7).take 6 = gpxe_magic) ∧
        isspace ((image.data.take 7).getD 6 0) = true
    · rw [if_pos hsig] at h
      exact absurd rfl h
    · rw [if_neg hsig]

theorem script_load_reject_unchanged_witness :
    (script_load ⟨[], none⟩).1 ≠ 0 ∧ (script_load ⟨[], none⟩).2 = ⟨[], none⟩ :=
  ⟨by decide, script_load_reject_unchanged ⟨[], none⟩ (by decide)⟩

/-- C10: the two rejection paths of `script_load` — blob shorter than the
7-byte magic-plus-separator buffer, and failed signature-plus-whitespace
check — both return the identical status `-ENOEXEC`, so a caller cannot
tell the two failure reasons apart from the returned value. -/
theorem script_load_errors_identical :
    (∀ image : Image, image.data.length < 7 → (script_load image).1 = -ENOEXEC) ∧
    (∀ image : Image, 7 ≤ image.data.length →
      ¬(((image.data.take 7).take 6 = ipxe_magic ∨
         (image.data.take 7).take 6 = gpxe_magic) ∧
        isspace ((image.data.take 7).getD 6 0) = true) →
      (script_load image).1 = -ENOEXEC) := by
  constructor
  · intro image hlen
    unfold script_load
    simp only [if_pos hlen]
  · intro image hlen hsig
    unfold script_load
    rw [if_neg (by omega), if_neg hsig]

theorem script_load_errors_identical_witness :
    (script_load ⟨[97], none⟩).1 = -ENOEXEC ∧
    (script_load ⟨[97, 97, 97, 97, 97, 97, 97], none⟩).1 = -ENOEXEC :=
  ⟨script_load_errors_identical.1 ⟨[97], none⟩ (by decide),
   script_load_errors_identical.2 ⟨[97, 97, 97, 97, 97, 97, 97], none⟩
     (by decide) (by decide)⟩

/-- C8: `goto_exec` invoked (with a well-formed single label argument)
while no script is active returns the non-zero status `-ENOTTY` and
leaves the state — both the active-script reference and the offset —
completely untouched. -/
theorem goto_exec_no_script (label : List Nat) (fuel : Nat) (s : State)
    (h : s.script = none) :
    goto_exec label fuel s = some (-ENOTTY, s) ∧ (-ENOTTY : Int) ≠ 0 := by
  constructor
  · unfold goto_exec
    rw [h]
  · decide

lemma findNLAux_bounds : ∀ (l : List Nat) (pos e : Nat),
    findNLAux l pos = some e → pos ≤ e ∧ e < pos + l.length := by
  intro l
  induction l with
  | nil => intro pos e h; exact Option.noConfusion h
  | cons c rest ih =>
    intro pos e h
    simp only [findNLAux] at h
    by_cases hc : c = 10
    · rw [if_pos hc] at h
      injection h with h
      subst h
      simp
    · rw [if_neg hc] at h
      have := ih (pos + 1) e h
      constructor
      · omega
      · simp only [List.length_cons]
        omega

lemma findNL_bounds (data : List Nat) (off e : Nat) (h : findNL data off = some e) :
    off ≤ e ∧ e < data.length := by
  have := findNLAux_bounds (data.drop off) off e h
  rw [List.length_drop] at this
  omega

lemma eol_ge (data : List Nat) (off : Nat) (hoff : off ≤ data.length) :
    off ≤ (findNL data off).getD data.length := by
  rcases h : findNL data off with _ | e
  · simpa using hoff
  · simpa using (findNL_bounds data off e h).1

/-- C5 counterexample: running the walker on a script of length 0 does
invoke the visitor — the do-while body runs once before the length test —
as shown by the non-empty visit trace (and the propagated status 7 that
only the visitor could have produced). -/
theorem process_script_empty_counterexample :
    processScript (fun _ st => ((7 : Int), st)) (fun _ => false) 2 ⟨some ⟨[], none⟩, 0⟩
        = some (7, ⟨some ⟨[], none⟩, 1⟩, [([], 7)]) ∧
      ([([], (7 : Int))] : List (List Nat × Int)) ≠ [] := by
  constructor
  · decide
  · decide

/-- C5 (amended): on a script of length 0 the walker invokes the visitor
exactly once, on the empty line (with the cursor already advanced to 1),
and — for a visitor that does not itself mutate the cursor state —
returns that single visit's status with a one-entry trace. -/
theorem process_script_empty_visits_once (f : List Nat → Int) (term : Int → Bool)
    (fuel off : Nat) (ty : Option ImageType) (h : 1 ≤ fuel) :
    processScript (fun l st => (f l, st)) term fuel ⟨some ⟨[], ty⟩, off⟩ =
      some (f [], ⟨some ⟨[], ty⟩, 1⟩, [([], f [])]) := by
  obtain ⟨n, rfl⟩ : ∃ n, fuel = n + 1 := ⟨fuel - 1, by omega⟩
  simp only [processScript, processScriptAux, findNL, findNLAux, List.drop_nil]
  cases hterm : term (f []) <;> simp [hterm]

theorem process_script_empty_visits_once_witness :
    1 ≤ 1 ∧
      processScript (fun l st => ((fun _ : List Nat => (5 : Int)) l, st)) (fun _ => true) 1
          ⟨some ⟨[], none⟩, 9⟩ =
        some ((fun _ : List Nat => (5 : Int)) ([] : List Nat), ⟨some ⟨[], none⟩, 1⟩,
          [(([] : List Nat), (fun _ : List Nat => (5 : Int)) ([] : List Nat))]) :=
  ⟨by decide,
   process_script_empty_visits_once (fun _ : List Nat => (5 : Int)) (fun _ => true) 1 9 none
     (by decide)⟩

/-- C4 counterexample: for a one-byte script (no newline at all), the
visitor observes the cursor already advanced to 2 = length + 1, one PAST
end-of-script, not to end-of-script (= 1) as the claim states. The
visitor here reports the offset it observes as its status. -/
theorem process_script_advance_counterexample :
    processScript (fun _ st => ((st.script_offset : Int), st)) (fun _ => true) 3
        ⟨some ⟨[97], none⟩, 0⟩
      = some (2, ⟨some ⟨[97], none⟩, 2⟩, [([97], 2)]) ∧
      (2 : Int) ≠ (((⟨[97], none⟩ : Image).data.length : Int)) := by
  constructor
  · decide
  · decide

/-- Written to the (amended) claim's words: one iteration of the Line
Walker. Extract the line — the bytes from the current offset up to but
excluding the next newline, or up to end-of-script when none remains;
advance the cursor to one past the terminator position (one past the
newline, or to end-of-script-plus-one when no newline existed); only then
invoke the visitor, on the already-advanced state; finally hand the line,
the visitor's status and the visitor's returned state (which therefore
overrides the walker's own advancement) to the continuation. -/
def walker_step_spec (pl : List Nat → State → Int × State) (img : Image) (s : State)
    (cont : List Nat → Int → State → Option (Int × State × List (List Nat × Int))) :
    Option (Int × State × List (List Nat × Int)) :=
  let eol := (findNL img.data s.script_offset).getD img.data.length
  let line := (img.data.drop s.script_offset).take (eol - s.script_offset)
  let advanced : State := { s with script_offset := eol + 1 }
  let r := pl line advanced
  cont line r.1 r.2

/-- C4 (amended): every iteration of the walker follows exactly the
extract / advance / visit ordering of `walker_step_spec` — the line is
the byte range from the current offset up to the next newline or
end-of-script, the cursor is advanced to one past the terminator (one
past end-of-script when no newline remains) before the visitor runs, and
the loop's continuation consults only the visitor's returned state, so a
visitor that assigns the cursor overrides the walker's advancement. -/
theorem process_script_line_order (pl : List Nat → State → Int × State)
    (term : Int → Bool) (fuel : Nat) (img : Image) (s : State)
    (tr : List (List Nat × Int))
    (hs : s.script = some img) (hoff : s.script_offset ≤ img.data.length) :
    processScriptAux pl term (fuel + 1) s tr =
      walker_step_spec pl img s (fun line rc st =>
        if term rc then some (rc, st, (line, rc) :: tr)
        else
          match st.script with
          | none => none
          | some img2 =>
            if st.script_offset < img2.data.length then
              processScriptAux pl term fuel st ((line, rc) :: tr)
            else some (rc, st, (line, rc) :: tr)) := by
  obtain ⟨so, off⟩ := s
  simp only at hs hoff
  subst hs
  have heol := eol_ge img.data off hoff
  simp only [processScriptAux, walker_step_spec]
  have harith : off + ((findNL img.data off).getD img.data.length - off) + 1 =
      (findNL img.data off).getD img.data.length + 1 := by omega
  rw [harith]

theorem process_script_line_order_witness :
    ((⟨some ⟨[97, 10], none⟩, 1⟩ : State).script = some ⟨[97, 10], none⟩ ∧
      (⟨some ⟨[97, 10], none⟩, 1⟩ : State).script_offset ≤
        (⟨[97, 10], none⟩ : Image).data.length) ∧
      processScriptAux (fun _ st => ((0 : Int), st)) (fun _ => false) 3
          ⟨some ⟨[97, 10], none⟩, 1⟩ [] =
        walker_step_spec (fun _ st => ((0 : Int), st)) ⟨[97, 10], none⟩
          ⟨some ⟨[97, 10], none⟩, 1⟩ (fun line rc st =>
            if (fun _ => false) rc then some (rc, st, (line, rc) :: ([] : List (List Nat × Int)))
            else
              match st.script with
              | none => none
              | some img2 =>
                if st.script_offset < img2.data.length then
                  processScriptAux (fun _ st2 => ((0 : Int), st2)) (fun _ => false) 2 st
                    ((line, rc) :: ([] : List (List Nat × Int)))
                else some (rc, st, (line, rc) :: ([] : List (List Nat × Int)))) :=
  ⟨⟨by decide, by decide⟩,
   process_script_line_order (fun _ st => ((0 : Int), st)) (fun _ => false) 2
     ⟨[97, 10], none⟩ ⟨some ⟨[97, 10], none⟩, 1⟩ [] (by decide) (by decide)⟩

theorem goto_exec_no_script_witness :
    (⟨none, 5⟩ : State).script = none ∧
      (goto_exec [102] 3 ⟨none, 5⟩ = some (-ENOTTY, ⟨none, 5⟩) ∧ (-ENOTTY : Int) ≠ 0) :=
  ⟨by decide, goto_exec_no_script [102] 3 ⟨none, 5⟩ (by decide)⟩

lemma processScriptAux_trace (pl : List Nat → State → Int × State) (term : Int → Bool) :
    ∀ (fuel : Nat) (s : State) (tr0 : List (List Nat × Int)) (rc : Int) (s2 : State)
      (tr : List (List Nat × Int)),
      (∀ p ∈ tr0, term p.2 = false) →
      processScriptAux pl term fuel s tr0 = some (rc, s2, tr) →
      ∃ lastv rest, tr = lastv :: rest ∧ rc = lastv.2 ∧ ∀ p ∈ rest, term p.2 = false := by
  intro fuel
  induction fuel with
  | zero =>
    intro s tr0 rc s2 tr h0 h
    exact Option.noConfusion h
  | succ n ih =>
    intro s tr0 rc s2 tr h0 h
    obtain ⟨so, off⟩ := s
    rcases so with _ | img
    · simp only [processScriptAux] at h
      exact Option.noConfusion h
    · simp only [processScriptAux] at h
      split at h
      · simp only [Option.some.injEq, Prod.mk.injEq] at h
        exact ⟨_, tr0, h.2.2.symm, h.1.symm, h0⟩
      · rename_i hterm
        split at h
        · exact Option.noConfusion h
        · split at h
          · refine ih _ _ rc s2 tr ?_ h
            intro p hp
            rcases List.mem_cons.mp hp with heq | hmem
            · subst heq
              simpa using hterm
            · exact h0 p hmem
          · simp only [Option.some.injEq, Prod.mk.injEq] at h
            exact ⟨_, tr0, h.2.2.symm, h.1.symm, h0⟩

/-- C7: whichever lines the walker visits, the returned status is exactly
the status of the final visited line — the first one whose status made
the stop predicate true, or the last line of the script when the
predicate never fired — and no line is visited after a stopping one: in
the (newest-first) visit trace every entry but the newest has a
non-stopping status. -/
theorem process_script_stop_first (pl : List Nat → State → Int × State)
    (term : Int → Bool) (fuel : Nat) (s : State) (rc : Int) (s2 : State)
    (tr : List (List Nat × Int))
    (h : processScript pl term fuel s = some (rc, s2, tr)) :
    ∃ lastv rest, tr = lastv :: rest ∧ rc = lastv.2 ∧ ∀ p ∈ rest, term p.2 = false :=
  processScriptAux_trace pl term fuel { s with script_offset := 0 } [] rc s2 tr
    (by simp) h

theorem process_script_stop_first_witness :
    processScript (fun l st => (if l = [97] then (1 : Int) else 0, st))
        terminate_on_failure 5 ⟨some ⟨[98, 10, 97, 10, 99], none⟩, 0⟩ =
      some (1, ⟨some ⟨[98, 10, 97, 10, 99], none⟩, 4⟩, [([97], 1), ([98], 0)]) ∧
      ∃ lastv rest,
        ([([97], (1 : Int)), ([98], 0)] : List (List Nat × Int)) = lastv :: rest ∧
        (1 : Int) = lastv.2 ∧ ∀ p ∈ rest, terminate_on_failure p.2 = false :=
  ⟨by decide,
   process_script_stop_first (fun l st => (if l = [97] then (1 : Int) else 0, st))
     terminate_on_failure 5 ⟨some ⟨[98, 10, 97, 10, 99], none⟩, 0⟩ 1
     ⟨some ⟨[98, 10, 97, 10, 99], none⟩, 4⟩ [([97], 1), ([98], 0)] (by decide)⟩

lemma cstr_eq_self : ∀ (l : List Nat), (∀ c ∈ l, c ≠ 0) → cstr l = l := by
  intro l
  induction l with
  | nil => intro _; rfl
  | cons c rest ih =>
    intro h
    have hc : (c != 0) = true := by
      simpa using h c (by simp)
    have ih2 := ih (fun x hx => h x (by simp [hx]))
    simp only [cstr] at ih2
    simp [cstr, List.takeWhile_cons, hc, ih2]

lemma goto_find_label_of_matches (label line : List Nat)
    (h : labelMatches label line = true) : goto_find_label label line = 0 := by
  simp only [labelMatches, Bool.and_eq_true, beq_iff_eq] at h
  unfold goto_find_label
  rw [if_neg (not_not_intro h.1), if_neg (not_not_intro (by rw [h.2]))]

lemma goto_find_label_of_not_matches (label line : List Nat)
    (hl : ∀ c ∈ label, c ≠ 0) (hline : ∀ c ∈ line, c ≠ 0)
    (h : labelMatches label line = false) : goto_find_label label line = -ENOENT := by
  unfold goto_find_label
  by_cases h1 : line.head? = some 58
  · rw [if_neg (not_not_intro h1)]
    by_cases h2 : line.tail = label
    · exfalso
      have hm : labelMatches label line = true := by
        simp [labelMatches, h1, h2]
      rw [h] at hm
      exact Bool.noConfusion hm
    · rw [if_pos]
      have hcl : cstr label = label := cstr_eq_self label hl
      have hct : cstr line.tail = line.tail :=
        cstr_eq_self line.tail (fun c hc => hline c (List.mem_of_mem_tail hc))
      rw [hcl, hct]
      exact fun he => h2 he.symm
  · rw [if_pos h1]

lemma eol_le (data : List Nat) (off : Nat) :
    (findNL data off).getD data.length ≤ data.length := by
  rcases h : findNL data off with _ | e
  · simp
  · simpa using (findNL_bounds data off e h).2.le

lemma walkLinesAux_nil (data : List Nat) (off n : Nat) (h : ¬ off < data.length) :
    walkLinesAux data off n = [] := by
  cases n with
  | zero => rfl
  | succ m => simp only [walkLinesAux, if_neg h]

lemma walkLinesAux_cons (data : List Nat) (off m : Nat) (h : off < data.length) :
    walkLinesAux data off (m + 1) =
      (off, (data.drop off).take ((findNL data off).getD data.length - off)) ::
        walkLinesAux data (off + ((findNL data off).getD data.length - off) + 1) m := by
  simp only [walkLinesAux, if_pos h]

lemma processScriptAux_goto_step (label data : List Nat) (ty : Option ImageType)
    (off : Nat) (tr : List (List Nat × Int)) (F : Nat) :
    processScriptAux (fun line st => (goto_find_label label line, st))
        terminate_on_success (F + 1) ⟨some ⟨data, ty⟩, off⟩ tr =
      (let eol := (findNL data off).getD data.length
       let line := (data.drop off).take (eol - off)
       let rc := goto_find_label label line
       if terminate_on_success rc then
         some (rc, ⟨some ⟨data, ty⟩, off + (eol - off) + 1⟩, (line, rc) :: tr)
       else if off + (eol - off) + 1 < data.length then
         processScriptAux (fun line2 st => (goto_find_label label line2, st))
           terminate_on_success F ⟨some ⟨data, ty⟩, off + (eol - off) + 1⟩ ((line, rc) :: tr)
       else some (rc, ⟨some ⟨data, ty⟩, off + (eol - off) + 1⟩, (line, rc) :: tr)) := rfl

lemma goto_walk (label data : List Nat) (ty : Option ImageType)
    (hd : ∀ c ∈ data, c ≠ 0) (hl : ∀ c ∈ label, c ≠ 0) :
    ∀ (fuel n off : Nat) (tr : List (List Nat × Int)),
      off ≤ data.length → data.length < off + fuel → data.length - off ≤ n →
      (∀ p : Nat × List Nat,
        (walkLinesAux data off n).find? (fun q => labelMatches label q.2) = some p →
        ∃ tr2, processScriptAux (fun line st => (goto_find_label label line, st))
            terminate_on_success fuel ⟨some ⟨data, ty⟩, off⟩ tr =
          some (0, ⟨some ⟨data, ty⟩, p.1 + p.2.length + 1⟩, tr2)) ∧
      ((walkLinesAux data off n).find? (fun q => labelMatches label q.2) = none →
        ∃ noff tr2, processScriptAux (fun line st => (goto_find_label label line, st))
            terminate_on_success fuel ⟨some ⟨data, ty⟩, off⟩ tr =
          some (-ENOENT, ⟨some ⟨data, ty⟩, noff⟩, tr2)) := by
  intro fuel
  induction fuel with
  | zero =>
    intro n off tr h1 h2 h3
    omega
  | succ F ihF =>
    intro n off tr h1 h2 h3
    rw [processScriptAux_goto_step]
    dsimp only
    by_cases hoff : off < data.length
    · obtain ⟨m, rfl⟩ : ∃ m, n = m + 1 := ⟨n - 1, by omega⟩
      rw [walkLinesAux_cons data off m hoff]
      set eol := (findNL data off).getD data.length with heol
      set line := (data.drop off).take (eol - off) with hlinedef
      have hlineN : ∀ c ∈ line, c ≠ 0 := fun c hc =>
        hd c (List.drop_subset _ _ (List.take_subset _ _ hc))
      have heolle : eol ≤ data.length := eol_le data off
      have heolge : off ≤ eol := eol_ge data off (le_of_lt hoff)
      have hlen : line.length = eol - off := by
        rw [hlinedef, List.length_take, List.length_drop]
        omega
      by_cases hm : labelMatches label line = true
      · rw [List.find?_cons_of_pos _ (by simpa using hm)]
        have hrc : goto_find_label label line = 0 :=
          goto_find_label_of_matches label line hm
        rw [hrc]
        constructor
        · intro p hp
          injection hp with hp
          subst hp
          rw [if_pos (by decide)]
          exact ⟨(line, 0) :: tr, by simp [hlen]⟩
        · intro hcontra
          exact Option.noConfusion hcontra
      · rw [List.find?_cons_of_neg _ (by simpa using hm)]
        have hrc : goto_find_label label line = -ENOENT :=
          goto_find_label_of_not_matches label line hl hlineN (by simpa using hm)
        rw [hrc, if_neg (by decide)]
        by_cases hlt : off + (eol - off) + 1 < data.length
        · rw [if_pos hlt]
          exact ihF m (off + (eol - off) + 1) ((line, -ENOENT) :: tr)
            (le_of_lt hlt) (by omega) (by omega)
        · rw [if_neg hlt]
          rw [walkLinesAux_nil data _ m hlt]
          constructor
          · intro p hp
            exact Option.noConfusion hp
          · intro _
            exact ⟨off + (eol - off) + 1, (line, -ENOENT) :: tr, rfl⟩
    · have hoffeq : off = data.length := by omega
      have hdrop : data.drop off = [] := List.drop_eq_nil_of_le (by omega)
      have hnl : findNL data off = none := by
        rw [findNL, hdrop]
        rfl
      rw [walkLinesAux_nil data off n hoff]
      constructor
      · intro p hp
        exact Option.noConfusion hp
      · intro _
        rw [hnl]
        simp only [Option.getD_none, hdrop, List.take_nil]
        have hrc : goto_find_label label [] = -ENOENT := by
          unfold goto_find_label
          rw [if_pos (by simp)]
        rw [hrc, if_neg (by decide), if_neg (by omega)]
        exact ⟨off + (data.length - off) + 1, ([], -ENOENT) :: tr, rfl⟩

/-- C2: when the active script contains a label line whose text after the
leading colon equals the requested label exactly (the earliest such line
being at offset `p.1` with content `p.2`) — and script and label are
NUL-free text, as the script format prescribes — `goto_exec` returns 0
and leaves `script_offset` exactly one past the end of that earliest
matching label line, i.e. at the start of the following line, regardless
of where the cursor stood when `goto` was invoked. -/
theorem goto_exec_found (label : List Nat) (img : Image) (s : State) (fuel : Nat)
    (p : Nat × List Nat)
    (hscript : s.script = some img)
    (hfuel : img.data.length < fuel)
    (hd : ∀ c ∈ img.data, c ≠ 0) (hl : ∀ c ∈ label, c ≠ 0)
    (hfind : (walkLines img.data).find? (fun q => labelMatches label q.2) = some p) :
    goto_exec label fuel s = some (0, { s with script_offset := p.1 + p.2.length + 1 }) := by
  obtain ⟨so, off0⟩ := s
  simp only at hscript
  subst hscript
  obtain ⟨data, ty⟩ := img
  obtain ⟨tr2, haux⟩ := (goto_walk label data ty hd hl fuel (data.length + 1) 0 []
      (by omega) (by simpa using hfuel) (by omega)).1 p hfind
  simp only [goto_exec, processScript]
  rw [haux]
  simp

/-- C3: when the active script contains no label line whose text after
the leading colon equals the requested label (script and label NUL-free
text, as the script format prescribes), `goto_exec` returns the non-zero
label-not-found status `-ENOENT` and the whole state — in particular
`script_offset` — is exactly what it was before the call. -/
theorem goto_exec_not_found (label : List Nat) (img : Image) (s : State) (fuel : Nat)
    (hscript : s.script = some img)
    (hfuel : img.data.length < fuel)
    (hd : ∀ c ∈ img.data, c ≠ 0) (hl : ∀ c ∈ label, c ≠ 0)
    (hnone : (walkLines img.data).find? (fun q => labelMatches label q.2) = none) :
    goto_exec label fuel s = some (-ENOENT, s) ∧ (-ENOENT : Int) ≠ 0 := by
  refine ⟨?_, by decide⟩
  obtain ⟨so, off0⟩ := s
  simp only at hscript
  subst hscript
  obtain ⟨data, ty⟩ := img
  obtain ⟨noff, tr2, haux⟩ := (goto_walk label data ty hd hl fuel (data.length + 1) 0 []
      (by omega) (by simpa using hfuel) (by omega)).2 hnone
  simp only [goto_exec, processScript]
  rw [haux]
  simp [ENOENT]

theorem goto_exec_found_witness :
    ((⟨some ⟨[97, 10, 58, 102, 111, 111, 10, 98, 10], none⟩, 5⟩ : State).script =
        some ⟨[97, 10, 58, 102, 111, 111, 10, 98, 10], none⟩ ∧
      (⟨[97, 10, 58, 102, 111, 111, 10, 98, 10], none⟩ : Image).data.length < 20 ∧
      (∀ c ∈ (⟨[97, 10, 58, 102, 111, 111, 10, 98, 10], none⟩ : Image).data, c ≠ 0) ∧
      (∀ c ∈ ([102, 111, 111] : List Nat), c ≠ 0) ∧
      (walkLines (⟨[97, 10, 58, 102, 111, 111, 10, 98, 10], none⟩ : Image).data).find?
          (fun q => labelMatches [102, 111, 111] q.2) = some (2, [58, 102, 111, 111])) ∧
      goto_exec [102, 111, 111] 20 ⟨some ⟨[97, 10, 58, 102, 111, 111, 10, 98, 10], none⟩, 5⟩ =
        some (0, ⟨some ⟨[97, 10, 58, 102, 111, 111, 10, 98, 10], none⟩, 7⟩) :=
  ⟨⟨by decide, by decide, by decide, by decide, by decide⟩,
   goto_exec_found [102, 111, 111] ⟨[97, 10, 58, 102, 111, 111, 10, 98, 10], none⟩
     ⟨some ⟨[97, 10, 58, 102, 111, 111, 10, 98, 10], none⟩, 5⟩ 20 (2, [58, 102, 111, 111])
     (by decide) (by decide) (by decide) (by decide) (by decide)⟩

theorem goto_exec_not_found_witness :
    ((⟨some ⟨[97, 10, 58, 102, 111, 111, 10, 98, 10], none⟩, 5⟩ : State).script =
        some ⟨[97, 10, 58, 102, 111, 111, 10, 98, 10], none⟩ ∧
      (⟨[97, 10, 58, 102, 111, 111, 10, 98, 10], none⟩ : Image).data.length < 20 ∧
      (∀ c ∈ (⟨[97, 10, 58, 102, 111, 111, 10, 98, 10], none⟩ : Image).data, c ≠ 0) ∧
      (∀ c ∈ ([120] : List Nat), c ≠ 0) ∧
      (walkLines (⟨[97, 10, 58, 102, 111, 111, 10, 98, 10], none⟩ : Image).data).find?
          (fun q => labelMatches [120] q.2) = none) ∧
      (goto_exec [120] 20 ⟨some ⟨[97, 10, 58, 102, 111, 111, 10, 98, 10], none⟩, 5⟩ =
          some (-ENOENT, ⟨some ⟨[97, 10, 58, 102, 111, 111, 10, 98, 10], none⟩, 5⟩) ∧
        (-ENOENT : Int) ≠ 0) :=
  ⟨⟨by decide, by decide, by decide, by decide, by decide⟩,
   goto_exec_not_found [120] ⟨[97, 10, 58, 102, 111, 111, 10, 98, 10], none⟩
     ⟨some ⟨[97, 10, 58, 102, 111, 111, 10, 98, 10], none⟩, 5⟩ 20
     (by decide) (by decide) (by decide) (by decide) (by decide)⟩

end ScriptEngine
